import Mathlib

/-!
Verification of the agent execution engine of `universal-rag`.

The development shallowly embeds `src/services/agent_service.py`
(`_load_system_prompt`, `_parse_tool_call`, `run_agent_loop`) and the
`event_stream` generator of `send_chat_message` in
`src/api/routes/chat.py`.  External collaborators (the blocking model
call `chat`, the process-wide `ToolRegistry`, the stdlib `re.search` /
`json.loads` calls, and the database helper `append_message`) are
modelled as oracle parameters gathered in an `Env` record; everything
else is translated line by line from the Python source.  An invocation
of the loop is a pure function from the environment to a `Trace`: the
ordered list of SSE events it yields, the tool dispatches it performs,
the observation messages it folds back into the conversation, and the
`asyncio.sleep` durations it awaits.
-/

namespace UniversalRag

/-- JSON values as produced by `json.loads`: the decoded Python object.
Numbers are modelled as integers (no claim depends on float values) and
a decoded `dict` is its key/value list. -/
inductive Json where
  | null
  | bool (b : Bool)
  | num (n : Int)
  | str (s : String)
  | arr (elems : List Json)
  | obj (fields : List (String × Json))
deriving Repr

mutual

def Json.decEq : (a b : Json) → Decidable (a = b)
  | .null, .null => .isTrue rfl
  | .bool a, .bool b =>
    if h : a = b then .isTrue (by rw [h]) else .isFalse (by intro hh; injection hh; contradiction)
  | .num a, .num b =>
    if h : a = b then .isTrue (by rw [h]) else .isFalse (by intro hh; injection hh; contradiction)
  | .str a, .str b =>
    if h : a = b then .isTrue (by rw [h]) else .isFalse (by intro hh; injection hh; contradiction)
  | .arr xs, .arr ys =>
    match Json.decEqList xs ys with
    | .isTrue h => .isTrue (by rw [h])
    | .isFalse h => .isFalse (by intro hh; injection hh; contradiction)
  | .obj xs, .obj ys =>
    match Json.decEqFields xs ys with
    | .isTrue h => .isTrue (by rw [h])
    | .isFalse h => .isFalse (by intro hh; injection hh; contradiction)
  | .null, .bool _ => .isFalse Json.noConfusion
  | .null, .num _ => .isFalse Json.noConfusion
  | .null, .str _ => .isFalse Json.noConfusion
  | .null, .arr _ => .isFalse Json.noConfusion
  | .null, .obj _ => .isFalse Json.noConfusion
  | .bool _, .null => .isFalse Json.noConfusion
  | .bool _, .num _ => .isFalse Json.noConfusion
  | .bool _, .str _ => .isFalse Json.noConfusion
  | .bool _, .arr _ => .isFalse Json.noConfusion
  | .bool _, .obj _ => .isFalse Json.noConfusion
  | .num _, .null => .isFalse Json.noConfusion
  | .num _, .bool _ => .isFalse Json.noConfusion
  | .num _, .str _ => .isFalse Json.noConfusion
  | .num _, .arr _ => .isFalse Json.noConfusion
  | .num _, .obj _ => .isFalse Json.noConfusion
  | .str _, .null => .isFalse Json.noConfusion
  | .str _, .bool _ => .isFalse Json.noConfusion
  | .str _, .num _ => .isFalse Json.noConfusion
  | .str _, .arr _ => .isFalse Json.noConfusion
  | .str _, .obj _ => .isFalse Json.noConfusion
  | .arr _, .null => .isFalse Json.noConfusion
  | .arr _, .bool _ => .isFalse Json.noConfusion
  | .arr _, .num _ => .isFalse Json.noConfusion
  | .arr _, .str _ => .isFalse Json.noConfusion
  | .arr _, .obj _ => .isFalse Json.noConfusion
  | .obj _, .null => .isFalse Json.noConfusion
  | .obj _, .bool _ => .isFalse Json.noConfusion
  | .obj _, .num _ => .isFalse Json.noConfusion
  | .obj _, .str _ => .isFalse Json.noConfusion
  | .obj _, .arr _ => .isFalse Json.noConfusion

def Json.decEqList : (xs ys : List Json) → Decidable (xs = ys)
  | [], [] => .isTrue rfl
  | [], _ :: _ => .isFalse (fun h => List.noConfusion h)
  | _ :: _, [] => .isFalse (fun h => List.noConfusion h)
  | x :: xs, y :: ys =>
    match Json.decEq x y, Json.decEqList xs ys with
    | .isTrue h1, .isTrue h2 => .isTrue (by rw [h1, h2])
    | .isFalse h1, _ => .isFalse (by intro hh; injection hh; contradiction)
    | _, .isFalse h2 => .isFalse (by intro hh; injection hh; contradiction)

def Json.decEqFields : (xs ys : List (String × Json)) → Decidable (xs = ys)
  | [], [] => .isTrue rfl
  | [], _ :: _ => .isFalse (fun h => List.noConfusion h)
  | _ :: _, [] => .isFalse (fun h => List.noConfusion h)
  | (k1, v1) :: xs, (k2, v2) :: ys =>
    if hk : k1 = k2 then
      match Json.decEq v1 v2, Json.decEqFields xs ys with
      | .isTrue h1, .isTrue h2 => .isTrue (by rw [hk, h1, h2])
      | .isFalse h1, _ => .isFalse (by
          intro hh
          injection hh with hh1 hh2
          injection hh1 with hka hva
          contradiction)
      | _, .isFalse h2 => .isFalse (by
          intro hh
          injection hh with hh1 hh2
          contradiction)
    else
      .isFalse (by
        intro hh
        injection hh with hh1 hh2
        injection hh1 with hka hva
        contradiction)

end

instance : DecidableEq Json := Json.decEq

namespace Json

/-- Python truthiness (`bool(x)`) of a decoded JSON value. -/
def truthy : Json → Bool
  | .null => false
  | .bool b => b
  | .num n => n != 0
  | .str s => s != ""
  | .arr xs => !xs.isEmpty
  | .obj kvs => !kvs.isEmpty

/-- Dictionary lookup `d.get(k)`: `none` when the value is not a dict or
the key is absent. -/
def get (j : Json) (k : String) : Option Json :=
  match j with
  | .obj kvs => lookupField kvs k
  | _ => none
where
  lookupField : List (String × Json) → String → Option Json
    | [], _ => none
    | (k₀, v) :: rest, k => if k₀ = k then some v else lookupField rest k

/-- `"k" in d` for a decoded dict (false on non-dicts). -/
def hasKey (j : Json) (k : String) : Bool := (j.get k).isSome

/-- `isinstance(x, dict)`. -/
def isObj : Json → Bool
  | .obj _ => true
  | _ => false

end Json

/-- A chat message `{"role": r, "content": c}`. -/
structure Message where
  role : String
  content : String
deriving Repr, DecidableEq

/-- The `AgentState` enum of `src/services/sse_utils.py`. -/
inductive AgentState where
  | THINKING
  | EXECUTING
  | DONE
  | ERROR
deriving Repr, DecidableEq

/-- The SSE events produced through `sse_status`, `sse_chunk`,
`sse_error` (code defaults to "UNKNOWN") and, on the API layer, the
`done` event of `_sse_event("done", {"message_id": id})`.  Each
constructor stands for the serialized `event: <name>\ndata: <json>`
frame; the frames of distinct constructors are distinguishable by their
`event:` line, so the structured form is faithful to the wire form. -/
inductive SseEvent where
  | status (state : AgentState) (step : Nat) (total : Nat) (message : String)
  | chunk (content : String)
  | error (message : String) (code : String)
  | done (message_id : Nat)
deriving Repr, DecidableEq

/-!
Python string methods, modelled over the string's code points
(`String.data`); Python strings are sequences of code points, so these
are the Python semantics of slicing, stripping and searching.
-/

/-- Python `str.strip()`: drop whitespace from both ends. -/
def pyStrip (s : String) : String :=
  (((s.data.dropWhile Char.isWhitespace).reverse.dropWhile Char.isWhitespace).reverse).asString

/-- Python `str.startswith`. -/
def pyStartsWith (s pre : String) : Bool :=
  pre.data.isPrefixOf s.data

/-- Python `s[n:]`. -/
def pyDropChars (s : String) (n : Nat) : String :=
  (s.data.drop n).asString

/-- Python `s[:n]`. -/
def pyTakeChars (s : String) (n : Nat) : String :=
  (s.data.take n).asString

/-- One fuelled pass of Python `str.replace` over code points:
replaces non-overlapping occurrences of `old` left to right.  The fuel
is at least the input length at every use, so the recursion never runs
out; an empty `old` never occurs in the embedded code. -/
def replaceAux (old new : List Char) : Nat → List Char → List Char
  | 0, s => s
  | _ + 1, [] => []
  | fuel + 1, c :: rest =>
    if old.isPrefixOf (c :: rest) && !old.isEmpty then
      new ++ replaceAux old new fuel ((c :: rest).drop old.length)
    else
      c :: replaceAux old new fuel rest

/-- Python `s.replace(old, new)`. -/
def pyReplace (s old new : String) : String :=
  (replaceAux old.data new.data s.data.length s.data).asString

/-- Strips leading and trailing backquote characters: Python
`text.strip("\x60")` (used on line 82 of `agent_service.py`). -/
def stripBackquotes (s : String) : String :=
  (((s.data.dropWhile (· == '\x60')).reverse.dropWhile (· == '\x60')).reverse).asString

/-- Lines 70–77 and 82–83 of `_parse_tool_call`: strip surrounding
whitespace, take the fenced block's inner text when the `re.search`
for a fenced json block (modelled by `extract`) matches, then apply the
two cleanup rewrites. -/
def selectText (extract : String → Option String) (content : String) : String :=
  let content := pyStrip content
  let text :=
    match extract content with
    | some inner => inner
    | none => content
  let text := if pyStartsWith text "\x60\x60\x60" then pyStrip (stripBackquotes text) else text
  if pyStartsWith text "json" then pyStrip (pyDropChars text 4) else text

/-- Embeds `_parse_tool_call` (`src/services/agent_service.py`, lines
65–91).  The stdlib collaborators are parameters: `extract` models the
`re.search` for a fenced json code block (returning the first group's
text when the regex matches) and `decode` models `json.loads`
(returning `none` when it raises `JSONDecodeError`).  The decoded value
is returned exactly when it is a dict containing both the "tool" and
the "args" key. -/
def parse_tool_call (extract : String → Option String) (decode : String → Option Json)
    (content : String) : Option Json :=
  match decode (selectText extract content) with
  | some data =>
    if data.isObj && data.hasKey "tool" && data.hasKey "args" then some data else none
  | none => none

/-- Lines 143–145: `tool_name = tool_call.get("tool")`, coerced to `""`
when it is not a string. -/
def toolNameOf (tc : Json) : String :=
  match tc.get "tool" with
  | some (.str s) => s
  | _ => ""

/-- Line 146: `tool_args = tool_call.get("args") or {}` — a missing or
falsy value becomes the empty dict. -/
def toolArgsOf (tc : Json) : Json :=
  match tc.get "args" with
  | some a => if a.truthy then a else .obj []
  | _ => .obj []

/-- External collaborators of the engine, as oracles.

* `chat` is `services.model_service.chat`; the returned content may be
  `None` (modelled `none`), and `Except.error e` models an exception
  raised by the call, caught by the loop body's `try`.
* `getTool` is `ToolRegistry.get_tool`; the returned function runs
  `tool_cls(**tool_args)` followed by `tool_instance.run()`, with
  `Except.error e` modelling any exception raised by construction or
  execution (both are covered by the same `except` clause).
* `extract` / `decode` are the stdlib oracles of `parse_tool_call`. -/
structure Env where
  chat : List Message → Except String (Option String)
  getTool : String → Option (Json → Except String String)
  extract : String → Option String
  decode : String → Option Json

/-- Lines 179–189: resolve the tool (only when the name is non-empty)
and run it; an unregistered name and a raising construction/execution
both become plain observation text, never an exception. -/
def toolResult (env : Env) (toolName : String) (toolArgs : Json) : String :=
  match (if toolName ≠ "" then env.getTool toolName else none) with
  | none =>
    let display := if toolName = "" then "UNKNOWN" else toolName
    s!"Error: Tool \x27{display}\x27 not found."
  | some impl =>
    match impl toolArgs with
    | .ok r => r
    | .error e => s!"Error execution tool: {e}"

/-- Line 197: the observation message folded back into the history. -/
def observationMsg (toolName result : String) : String :=
  s!"Tool \x27{toolName}\x27 Result: {result}"

/-- Line 156: the corrective observation appended on a repeated call. -/
def repeatErrorMsg (toolName : String) : String :=
  s!"Error: Repeated tool call \x27{toolName}\x27 with same arguments. Stop and answer."

/-- Line 201: `str(result)[:50].replace("\n", " ")`. -/
def resultPreview (result : String) : String :=
  pyReplace (pyTakeChars result 50) "\n" " "

/-- The observable outcome of one loop invocation: the SSE events in
yield order, the tool dispatches (one `(tool_name, tool_args)` entry
per pass through the executing branch, lines 171–206), the observation
messages appended with role "user" (lines 158 and 195–198), and the
`asyncio.sleep` durations awaited (lines 165 and 205). -/
structure Trace where
  events : List SseEvent
  dispatches : List (String × Json)
  observations : List String
  sleeps : List Nat
deriving Repr, DecidableEq

/-- The loop-local mutable state of `run_agent_loop`. -/
structure LoopSt where
  messages : List Message
  lastSig : Option (String × Json)
  repeatCount : Nat

/-- The `while current_step < max_steps` loop of `run_agent_loop`
(lines 129–223), by recursion on the remaining budget
`fuel = max_steps - current_step`; when it reaches 0 the trailing
step-budget error of line 223 is emitted.  `repeatLimit` and `backoff`
thread the enclosing function's local constants (lines 125, 165, 205)
through the recursion.  The signature comparison of lines 149–150
(`json.dumps({"tool": .., "args": ..}, sort_keys=True)` string
equality) is modelled as equality of the `(tool_name, tool_args)`
pair itself. -/
def loopFrom (env : Env) (maxSteps repeatLimit backoff : Nat) :
    Nat → Nat → LoopSt → Trace
  | 0, _, _ =>
    ⟨[.error "Task limit exceeded (Max steps reached)." "UNKNOWN"], [], [], []⟩
  | fuel + 1, step0, st =>
    let currentStep := step0 + 1
    match env.chat st.messages with
    | .error e => ⟨[.error s!"Agent execution failed: {e}" "UNKNOWN"], [], [], []⟩
    | .ok contentOpt =>
      let content := contentOpt.getD ""
      match parse_tool_call env.extract env.decode content with
      | none =>
        ⟨[.status .DONE currentStep maxSteps "已完成", .chunk content], [], [], []⟩
      | some tc =>
        let toolName := toolNameOf tc
        let toolArgs := toolArgsOf tc
        let sig : String × Json := (toolName, toolArgs)
        if st.lastSig = some sig then
          let repeatCount := st.repeatCount + 1
          if repeatLimit < repeatCount then
            ⟨[.error "重复工具调用超过上限，已终止执行" "UNKNOWN"], [], [], []⟩
          else
            let errorMsg := repeatErrorMsg toolName
            let messages := st.messages ++ [⟨"assistant", content⟩, ⟨"user", errorMsg⟩]
            let rest := loopFrom env maxSteps repeatLimit backoff fuel currentStep
              ⟨messages, st.lastSig, repeatCount⟩
            ⟨.status .ERROR currentStep maxSteps "检测到重复调用" :: rest.events,
              rest.dispatches, errorMsg :: rest.observations, backoff :: rest.sleeps⟩
        else
          let result := toolResult env toolName toolArgs
          let obs := observationMsg toolName result
          let messages := st.messages ++ [⟨"assistant", content⟩, ⟨"user", obs⟩]
          let rest := loopFrom env maxSteps repeatLimit backoff fuel currentStep
            ⟨messages, some sig, 0⟩
          ⟨.status .EXECUTING currentStep maxSteps s!"调用工具: {toolName}"
              :: .status .THINKING (currentStep + 1) maxSteps
                  s!"工具返回: {resultPreview result}..."
              :: rest.events,
            sig :: rest.dispatches, obs :: rest.observations, backoff :: rest.sleeps⟩

/-- Embeds `_load_system_prompt` (lines 32–63).  `schemaJson` models
`json.dumps(ToolRegistry.get_all_schemas(), ...)`, `customPrompt` the
agent's custom prompt (`""` when there is none), and `templateFile` the
content of `prompts/agent/system.md` (`none` when opening it raises
`FileNotFoundError`, in which case the built-in fallback template is
used). -/
def _load_system_prompt (schemaJson customPrompt : String)
    (templateFile : Option String) : String :=
  let template :=
    match templateFile with
    | some t => t
    | none => "You are a helpful assistant. Tools: {tool_schemas}"
  let result := pyReplace template "{tool_schemas}" schemaJson
  if customPrompt ≠ "" then customPrompt ++ "\n\n---\n\n" ++ result else result

/-- Lines 117–119: the initial message sequence. -/
def initial_messages (systemPrompt : String) (history : List Message)
    (userContent : String) : List Message :=
  ⟨"system", systemPrompt⟩ :: (history ++ [⟨"user", userContent⟩])

/-- Embeds `run_agent_loop` (lines 99–224).  The only loop parameter in
the function's signature is `max_steps` (default 10); `repeat_limit`
is the local constant 2 of line 125 and the backoff is the literal
1-second sleep of lines 165 and 205. -/
def run_agent_loop (env : Env) (schemaJson customPrompt : String)
    (templateFile : Option String) (history : List Message)
    (userContent : String) (maxSteps : Nat := 10) : Trace :=
  let systemPrompt := _load_system_prompt schemaJson customPrompt templateFile
  let t := loopFrom env maxSteps 2 1 maxSteps 0
    ⟨initial_messages systemPrompt history userContent, none, 0⟩
  ⟨.status .THINKING 1 maxSteps "思考中..." :: t.events,
    t.dispatches, t.observations, t.sleeps⟩

/-- Follows the spec's words (section 6, "Configuration (externally
overridable per invocation)"): the same loop, but with `repeat_limit`
and `backoff_interval` as per-invocation parameters with defaults 2
and 1.  Used to compare the spec's claimed interface against the
source's `run_agent_loop`. -/
def run_agent_loop_specConfig (env : Env) (schemaJson customPrompt : String)
    (templateFile : Option String) (history : List Message)
    (userContent : String) (maxSteps : Nat := 10) (repeatLimit : Nat := 2)
    (backoffInterval : Nat := 1) : Trace :=
  let systemPrompt := _load_system_prompt schemaJson customPrompt templateFile
  let t := loopFrom env maxSteps repeatLimit backoffInterval maxSteps 0
    ⟨initial_messages systemPrompt history userContent, none, 0⟩
  ⟨.status .THINKING 1 maxSteps "思考中..." :: t.events,
    t.dispatches, t.observations, t.sleeps⟩

/-- Embeds the `event_stream` generator of `send_chat_message`
(`src/api/routes/chat.py`, lines 223–276) over the engine's event
list: every engine event is forwarded; the content of each `chunk`
event is captured (the `startswith("event: chunk")` test selects
exactly the chunk frames, and decoding the frame's data line recovers
the content); when the joined answer is non-empty the assistant
message is persisted through `appendMessage` (modelling
`append_message`, which returns the new row id) and `done` carries
that id, otherwise `done` carries 0. -/
def event_stream (engineEvents : List SseEvent) (appendMessage : String → Nat) :
    List SseEvent :=
  let finalContent := engineEvents.filterMap fun e =>
    match e with
    | .chunk c => some c
    | _ => none
  let fullAnswer := String.join finalContent
  if fullAnswer ≠ "" then
    engineEvents ++ [.done (appendMessage fullAnswer)]
  else
    engineEvents ++ [.done 0]

/-- A terminal event of the engine's stream: the `error` frame, or the
`chunk` frame closing the success path (`Status(DONE)` immediately
followed by the final chunk), or a `done` frame. -/
def isTerminalEvent : SseEvent → Bool
  | .chunk _ => true
  | .error _ _ => true
  | .done _ => true
  | .status _ _ _ _ => false

/-- An `error` frame. -/
def isErrorEvent : SseEvent → Bool
  | .error _ _ => true
  | _ => false

/-- A `done` frame. -/
def isDoneEvent : SseEvent → Bool
  | .done _ => true
  | _ => false

/-- An event stream with exactly one terminal event, placed at its end:
either a non-terminal prefix closed by a single `error` frame, or a
non-terminal prefix closed by `Status(DONE)` immediately followed by
the final `chunk`. -/
def goodTrace (maxSteps : Nat) (evs : List SseEvent) : Prop :=
  (∃ pre m, evs = pre ++ [SseEvent.error m "UNKNOWN"] ∧
    pre.all (fun e => !isTerminalEvent e) = true) ∨
  (∃ pre s m c, evs = pre ++ [SseEvent.status .DONE s maxSteps m, SseEvent.chunk c] ∧
    pre.all (fun e => !isTerminalEvent e) = true)

/-- A raw model text which the decode oracles below map to `tcObj`. -/
def toolCallText : String := "CALL"

/-- The decoded tool call `{"tool": "t", "args": {}}`. -/
def tcObj : Json := .obj [("tool", .str "t"), ("args", .obj [])]

/-- A registry holding one tool "t" whose execution returns "ok". -/
def registryT : String → Option (Json → Except String String) :=
  fun name => if name = "t" then some (fun _ => .ok "ok") else none

/-- A decode oracle knowing only `toolCallText`. -/
def decodeT : String → Option Json :=
  fun s => if s = toolCallText then some tcObj else none

/-- An extract oracle that never matches (no fenced block present). -/
def extractNone : String → Option String := fun _ => none

/-- Environment in which the model emits the identical tool call on its
first three steps (message lists of length 2, 4 and 6) and then a plain
final answer. -/
def envRepeat3 : Env where
  chat := fun msgs =>
    if msgs.length ≤ 6 then .ok (some toolCallText) else .ok (some "final answer")
  getTool := registryT
  extract := extractNone
  decode := decodeT

/-- Environment in which the model emits the identical tool call on
every step. -/
def envRepeatForever : Env where
  chat := fun _ => .ok (some toolCallText)
  getTool := registryT
  extract := extractNone
  decode := decodeT

/-- The decoded value `{"tool": 5, "args": 1}`: a dict with both keys
present but a non-string "tool" value and a non-dict "args" value. -/
def badToolCall : Json := .obj [("tool", .num 5), ("args", .num 1)]

/-- A decode oracle mapping the text "x" to `badToolCall`. -/
def decodeBad : String → Option Json :=
  fun s => if s = "x" then some badToolCall else none

/-- Environment in which the model calls a tool name that is not
registered. -/
def envNoTool : Env where
  chat := fun _ => .ok (some "M")
  getTool := fun _ => none
  extract := extractNone
  decode := fun s =>
    if s = "M" then some (.obj [("tool", .str "missing"), ("args", .obj [])]) else none

/-- Environment in which the model always answers with plain text. -/
def envPlainAnswer : Env where
  chat := fun _ => .ok (some "4")
  getTool := fun _ => none
  extract := extractNone
  decode := fun _ => none

/-- Environment in which the model response carries no content
(`response.content` is `None`). -/
def envEmptyContent : Env where
  chat := fun _ => .ok none
  getTool := fun _ => none
  extract := extractNone
  decode := fun _ => none

/-! ## Helper lemmas -/

/-- Unfolding equation: a model exception terminates the invocation. -/
theorem loopFrom_step_chat_error {env : Env} {M rl b fuel step : Nat} {st : LoopSt}
    {e : String} (hchat : env.chat st.messages = .error e) :
    loopFrom env M rl b (fuel + 1) step st =
      ⟨[.error s!"Agent execution failed: {e}" "UNKNOWN"], [], [], []⟩ := by
  rw [loopFrom, hchat]

/-- Unfolding equation: a response with no parsed tool call is the
final answer. -/
theorem loopFrom_step_final {env : Env} {M rl b fuel step : Nat} {st : LoopSt}
    {oc : Option String} (hchat : env.chat st.messages = .ok oc)
    (hparse : parse_tool_call env.extract env.decode (oc.getD "") = none) :
    loopFrom env M rl b (fuel + 1) step st =
      ⟨[.status .DONE (step + 1) M "已完成", .chunk (oc.getD "")], [], [], []⟩ := by
  rw [loopFrom, hchat]
  dsimp only []
  rw [hparse]

/-- Unfolding equation: a fresh tool call is dispatched and the loop
continues with the observation folded in. -/
theorem loopFrom_step_execute {env : Env} {M rl b fuel step : Nat} {st : LoopSt}
    {c : String} {tc : Json}
    (hchat : env.chat st.messages = .ok (some c))
    (hparse : parse_tool_call env.extract env.decode c = some tc)
    (hsig : st.lastSig ≠ some (toolNameOf tc, toolArgsOf tc)) :
    loopFrom env M rl b (fuel + 1) step st =
      (let n := toolNameOf tc
       let a := toolArgsOf tc
       let result := toolResult env n a
       let rest := loopFrom env M rl b fuel (step + 1)
         ⟨st.messages ++ [⟨"assistant", c⟩, ⟨"user", observationMsg n result⟩], some (n, a), 0⟩
       ⟨.status .EXECUTING (step + 1) M s!"调用工具: {n}"
          :: .status .THINKING (step + 2) M s!"工具返回: {resultPreview result}..."
          :: rest.events,
        (n, a) :: rest.dispatches,
        observationMsg n result :: rest.observations,
        b :: rest.sleeps⟩) := by
  rw [loopFrom, hchat]
  dsimp only [Option.getD_some]
  rw [hparse]
  dsimp only []
  rw [if_neg hsig]

/-- Unfolding equation: a repeated call within the limit yields the
corrective observation and continues. -/
theorem loopFrom_step_repeat {env : Env} {M rl b fuel step : Nat} {st : LoopSt}
    {c : String} {tc : Json}
    (hchat : env.chat st.messages = .ok (some c))
    (hparse : parse_tool_call env.extract env.decode c = some tc)
    (hsig : st.lastSig = some (toolNameOf tc, toolArgsOf tc))
    (hcnt : ¬ rl < st.repeatCount + 1) :
    loopFrom env M rl b (fuel + 1) step st =
      (let n := toolNameOf tc
       let rest := loopFrom env M rl b fuel (step + 1)
         ⟨st.messages ++ [⟨"assistant", c⟩, ⟨"user", repeatErrorMsg n⟩],
          st.lastSig, st.repeatCount + 1⟩
       ⟨.status .ERROR (step + 1) M "检测到重复调用" :: rest.events,
        rest.dispatches, repeatErrorMsg n :: rest.observations, b :: rest.sleeps⟩) := by
  rw [loopFrom, hchat]
  dsimp only [Option.getD_some]
  rw [hparse]
  dsimp only []
  rw [if_pos hsig, if_neg hcnt]

/-- Unfolding equation: a repeated call beyond the limit terminates
with the repeat error. -/
theorem loopFrom_step_repeat_over {env : Env} {M rl b fuel step : Nat} {st : LoopSt}
    {c : String} {tc : Json}
    (hchat : env.chat st.messages = .ok (some c))
    (hparse : parse_tool_call env.extract env.decode c = some tc)
    (hsig : st.lastSig = some (toolNameOf tc, toolArgsOf tc))
    (hcnt : rl < st.repeatCount + 1) :
    loopFrom env M rl b (fuel + 1) step st =
      ⟨[.error "重复工具调用超过上限，已终止执行" "UNKNOWN"], [], [], []⟩ := by
  rw [loopFrom, hchat]
  dsimp only [Option.getD_some]
  rw [hparse]
  dsimp only []
  rw [if_pos hsig, if_pos hcnt]

/-- Prepending a non-terminal event preserves the one-terminal shape. -/
theorem goodTrace_cons {M : Nat} {e : SseEvent} (he : isTerminalEvent e = false)
    {evs : List SseEvent} (h : goodTrace M evs) : goodTrace M (e :: evs) := by
  rcases h with ⟨pre, m, hevs, hall⟩ | ⟨pre, s, m, c, hevs, hall⟩
  · exact Or.inl ⟨e :: pre, m, by rw [hevs]; rfl, by simp [hall, he]⟩
  · exact Or.inr ⟨e :: pre, s, m, c, by rw [hevs]; rfl, by simp [hall, he]⟩

/-- Every run of the while loop produces a stream with exactly one
terminal event, at its end. -/
theorem loopFrom_goodTrace (env : Env) (M rl b : Nat) :
    ∀ (fuel step : Nat) (st : LoopSt),
      goodTrace M (loopFrom env M rl b fuel step st).events := by
  intro fuel
  induction fuel with
  | zero =>
    intro step st
    exact Or.inl ⟨[], _, rfl, rfl⟩
  | succ n ih =>
    intro step st
    rw [loopFrom]
    cases hc : env.chat st.messages with
    | error e => exact Or.inl ⟨[], _, rfl, rfl⟩
    | ok contentOpt =>
      dsimp only []
      cases hp : parse_tool_call env.extract env.decode (contentOpt.getD "") with
      | none => exact Or.inr ⟨[], _, _, _, rfl, rfl⟩
      | some tc =>
        dsimp only []
        by_cases hsig : st.lastSig = some (toolNameOf tc, toolArgsOf tc)
        · rw [if_pos hsig]
          by_cases hcnt : rl < st.repeatCount + 1
          · rw [if_pos hcnt]
            exact Or.inl ⟨[], _, rfl, rfl⟩
          · rw [if_neg hcnt]
            apply goodTrace_cons
            · rfl
            · exact ih _ _
        · rw [if_neg hsig]
          apply goodTrace_cons
          · rfl
          · apply goodTrace_cons
            · rfl
            · exact ih _ _

/-- The engine itself never yields a `done` frame (line 214 leaves it
to the API layer). -/
theorem loopFrom_no_done (env : Env) (M rl b : Nat) :
    ∀ (fuel step : Nat) (st : LoopSt),
      ((loopFrom env M rl b fuel step st).events.all fun e => !isDoneEvent e) = true := by
  intro fuel
  induction fuel with
  | zero => intro step st; rfl
  | succ n ih =>
    intro step st
    rw [loopFrom]
    cases hc : env.chat st.messages with
    | error e => rfl
    | ok contentOpt =>
      dsimp only []
      cases hp : parse_tool_call env.extract env.decode (contentOpt.getD "") with
      | none => rfl
      | some tc =>
        dsimp only []
        by_cases hsig : st.lastSig = some (toolNameOf tc, toolArgsOf tc)
        · rw [if_pos hsig]
          by_cases hcnt : rl < st.repeatCount + 1
          · rw [if_pos hcnt]; rfl
          · rw [if_neg hcnt]
            simp only [List.all_cons]
            exact ih _ _
        · rw [if_neg hsig]
          simp only [List.all_cons]
          exact ih _ _

/-- Every sleep awaited by the while loop has the backoff length. -/
theorem loopFrom_sleeps (env : Env) (M rl b : Nat) :
    ∀ (fuel step : Nat) (st : LoopSt),
      ∀ d ∈ (loopFrom env M rl b fuel step st).sleeps, d = b := by
  intro fuel
  induction fuel with
  | zero => intro step st d hd; simp [loopFrom] at hd
  | succ n ih =>
    intro step st
    rw [loopFrom]
    cases hc : env.chat st.messages with
    | error e => intro d hd; simp at hd
    | ok contentOpt =>
      dsimp only []
      cases hp : parse_tool_call env.extract env.decode (contentOpt.getD "") with
      | none => intro d hd; simp at hd
      | some tc =>
        dsimp only []
        by_cases hsig : st.lastSig = some (toolNameOf tc, toolArgsOf tc)
        · rw [if_pos hsig]
          by_cases hcnt : rl < st.repeatCount + 1
          · rw [if_pos hcnt]; intro d hd; simp at hd
          · rw [if_neg hcnt]
            intro d hd
            rcases List.mem_cons.mp hd with h | h
            · exact h
            · exact ih _ _ d h
        · rw [if_neg hsig]
          intro d hd
          rcases List.mem_cons.mp hd with h | h
          · exact h
          · exact ih _ _ d h

/-- Once the previous signature equals the call the model keeps
repeating, no further step ever dispatches the tool; every observation
appended from then on is the corrective message. -/
theorem loopFrom_repeat_locked (env : Env) (M : Nat) (c : String) (tc : Json)
    (hchat : ∀ msgs, env.chat msgs = .ok (some c))
    (hparse : parse_tool_call env.extract env.decode c = some tc) :
    ∀ (fuel step : Nat) (st : LoopSt),
      st.lastSig = some (toolNameOf tc, toolArgsOf tc) →
      (loopFrom env M 2 1 fuel step st).dispatches = [] ∧
      ∀ o ∈ (loopFrom env M 2 1 fuel step st).observations,
        o = repeatErrorMsg (toolNameOf tc) := by
  intro fuel
  induction fuel with
  | zero =>
    intro step st hsig
    exact ⟨rfl, by intro o ho; simp [loopFrom] at ho⟩
  | succ n ih =>
    intro step st hsig
    by_cases hcnt : 2 < st.repeatCount + 1
    · rw [loopFrom_step_repeat_over (hchat st.messages) hparse hsig hcnt]
      exact ⟨rfl, by intro o ho; simp at ho⟩
    · rw [loopFrom_step_repeat (hchat st.messages) hparse hsig hcnt]
      dsimp only []
      have hnew := ih (step + 1)
        ⟨st.messages ++ [⟨"assistant", c⟩, ⟨"user", repeatErrorMsg (toolNameOf tc)⟩],
         st.lastSig, st.repeatCount + 1⟩ hsig
      refine ⟨hnew.1, ?_⟩
      intro o ho
      rcases List.mem_cons.mp ho with h | h
      · exact h
      · exact hnew.2 o h

/-- A first response with no parseable tool call ends the run at step 1
with `Status(DONE)` and the raw content as the final chunk. -/
theorem run_final_answer (env : Env) (sj cp : String) (tf : Option String)
    (hist : List Message) (uc : String) (m : Nat) (oc : Option String)
    (hchat : env.chat (initial_messages (_load_system_prompt sj cp tf) hist uc) = .ok oc)
    (hparse : parse_tool_call env.extract env.decode (oc.getD "") = none) :
    run_agent_loop env sj cp tf hist uc (m + 1) =
      ⟨[.status .THINKING 1 (m + 1) "思考中...",
        .status .DONE 1 (m + 1) "已完成",
        .chunk (oc.getD "")], [], [], []⟩ := by
  rw [run_agent_loop]
  rw [loopFrom_step_final hchat hparse]

/-- The parser yields no tool call on the empty string, given the two
stdlib facts that the fence regex has no match in `""` and that
`json.loads("")` fails. -/
theorem parse_tool_call_empty (extract : String → Option String)
    (decode : String → Option Json)
    (hex : extract "" = none) (hdec : decode "" = none) :
    parse_tool_call extract decode "" = none := by
  have hsel : selectText extract "" = "" := by
    rw [selectText]
    rw [show pyStrip "" = ("" : String) from rfl]
    rw [hex]
    rfl
  rw [parse_tool_call, hsel, hdec]

/-- A list whose elements all fail a test filters to the empty list. -/
theorem filter_nil_of_all {α : Type} {p : α → Bool} {l : List α}
    (h : (l.all fun e => !p e) = true) : l.filter p = [] := by
  rw [List.filter_eq_nil_iff]
  intro a ha
  have h2 := List.all_eq_true.mp h a ha
  simp only [Bool.not_eq_true'] at h2
  simp [h2]

/-- Claim C3: every invocation of the agent loop emits exactly one
terminal event — either `Status(DONE)` immediately followed by the
final `Chunk`, or a single terminal `Error` (which is also what
exhausting the step budget produces) — and no event follows it. -/
theorem run_emits_exactly_one_terminal_event (env : Env) (sj cp : String)
    (tf : Option String) (hist : List Message) (uc : String) (M : Nat) :
    goodTrace M (run_agent_loop env sj cp tf hist uc M).events ∧
    ((run_agent_loop env sj cp tf hist uc M).events.filter isTerminalEvent).length = 1 := by
  have hg : goodTrace M (run_agent_loop env sj cp tf hist uc M).events := by
    rw [run_agent_loop]
    apply goodTrace_cons
    · rfl
    · exact loopFrom_goodTrace env M 2 1 M 0 _
  refine ⟨hg, ?_⟩
  rcases hg with ⟨pre, m, hevs, hall⟩ | ⟨pre, s, m, c, hevs, hall⟩
  · rw [hevs, List.filter_append, filter_nil_of_all hall]
    rfl
  · rw [hevs, List.filter_append, filter_nil_of_all hall]
    rfl

/-- Claim C6: if the model's first response contains no parseable tool
call, the loop terminates at step 1 with `Status(DONE)` and then a
`Chunk` equal to the raw model output, with no tool dispatch. -/
theorem no_tool_call_terminates_at_step_one (env : Env) (sj cp : String)
    (tf : Option String) (hist : List Message) (uc : String) (m : Nat)
    (oc : Option String)
    (hchat : env.chat (initial_messages (_load_system_prompt sj cp tf) hist uc) = .ok oc)
    (hparse : parse_tool_call env.extract env.decode (oc.getD "") = none) :
    run_agent_loop env sj cp tf hist uc (m + 1) =
      ⟨[.status .THINKING 1 (m + 1) "思考中...",
        .status .DONE 1 (m + 1) "已完成",
        .chunk (oc.getD "")], [], [], []⟩ :=
  run_final_answer env sj cp tf hist uc m oc hchat hparse

/-- Concrete instance of C6: the model answers "4" outright. -/
theorem no_tool_call_terminates_at_step_one_witness :
    run_agent_loop envPlainAnswer "S" "" none [] "2+2?" 10 =
      ⟨[.status .THINKING 1 10 "思考中...",
        .status .DONE 1 10 "已完成",
        .chunk "4"], [], [], []⟩ :=
  no_tool_call_terminates_at_step_one envPlainAnswer "S" "" none [] "2+2?" 9
    (some "4") rfl rfl

/-- Claim C7: prompt assembly yields `[system, ...history, user]`; the
system message is the persona text (when non-empty) concatenated with
the base template whose tool-schema placeholder has been substituted,
and a missing template file falls back to the minimal built-in
template instead of failing. -/
theorem prompt_assembly_shape (sj cp uc : String) (hist : List Message) :
    (∀ tf, initial_messages (_load_system_prompt sj cp tf) hist uc =
      ⟨"system", _load_system_prompt sj cp tf⟩ :: (hist ++ [⟨"user", uc⟩])) ∧
    (∀ t, _load_system_prompt sj cp (some t) =
      (if cp ≠ "" then cp ++ "\n\n---\n\n" ++ pyReplace t "{tool_schemas}" sj
       else pyReplace t "{tool_schemas}" sj)) ∧
    _load_system_prompt sj cp none =
      (if cp ≠ "" then
        cp ++ "\n\n---\n\n" ++
          pyReplace "You are a helpful assistant. Tools: {tool_schemas}" "{tool_schemas}" sj
       else pyReplace "You are a helpful assistant. Tools: {tool_schemas}" "{tool_schemas}" sj) :=
  ⟨fun _ => rfl, fun _ => rfl, rfl⟩

/-- Claim C9: a model response whose content is `None` or the empty
string is normalized to `""` and treated as a final answer: the run
terminates with `Status(DONE)` followed by `Chunk("")`, raising
nothing and dispatching no tool. -/
theorem empty_content_treated_as_final_answer (env : Env) (sj cp : String)
    (tf : Option String) (hist : List Message) (uc : String) (m : Nat)
    (oc : Option String)
    (hchat : env.chat (initial_messages (_load_system_prompt sj cp tf) hist uc) = .ok oc)
    (hoc : oc = none ∨ oc = some "")
    (hex : env.extract "" = none) (hdec : env.decode "" = none) :
    run_agent_loop env sj cp tf hist uc (m + 1) =
      ⟨[.status .THINKING 1 (m + 1) "思考中...",
        .status .DONE 1 (m + 1) "已完成",
        .chunk ""], [], [], []⟩ := by
  have hgd : oc.getD "" = "" := by rcases hoc with h | h <;> simp [h]
  have h := run_final_answer env sj cp tf hist uc m oc hchat
    (by rw [hgd]; exact parse_tool_call_empty env.extract env.decode hex hdec)
  rw [h, hgd]

/-- Concrete instance of C9: the model returns content `None`. -/
theorem empty_content_treated_as_final_answer_witness :
    run_agent_loop envEmptyContent "S" "" none [] "hi" 10 =
      ⟨[.status .THINKING 1 10 "思考中...",
        .status .DONE 1 10 "已完成",
        .chunk ""], [], [], []⟩ :=
  empty_content_treated_as_final_answer envEmptyContent "S" "" none [] "hi" 9
    none rfl (Or.inl rfl) rfl rfl

/-- Claim C10: the SSE stream the chat endpoint sends ends with exactly
one `done` event — carrying the persisted assistant message id when a
non-empty final answer was captured from the chunk events, and 0
otherwise — even when the engine's events include an `error`. -/
theorem chat_stream_ends_with_single_done (env : Env) (sj cp : String)
    (tf : Option String) (hist : List Message) (uc : String) (M : Nat)
    (appendMessage : String → Nat) :
    ((event_stream (run_agent_loop env sj cp tf hist uc M).events appendMessage).filter
        isDoneEvent).length = 1 ∧
    (event_stream (run_agent_loop env sj cp tf hist uc M).events appendMessage).getLast? =
      some (.done
        (let fullAnswer := String.join
          ((run_agent_loop env sj cp tf hist uc M).events.filterMap fun e =>
            match e with
            | .chunk c => some c
            | _ => none)
         if fullAnswer ≠ "" then appendMessage fullAnswer else 0)) := by
  have hall : ((run_agent_loop env sj cp tf hist uc M).events.all fun e => !isDoneEvent e) = true := by
    rw [run_agent_loop, List.all_cons, loopFrom_no_done]
    rfl
  have hnil := filter_nil_of_all hall
  rw [event_stream]
  dsimp only []
  split
  · constructor
    · rw [List.filter_append, hnil]
      rfl
    · rw [List.getLast?_concat]
  · constructor
    · rw [List.filter_append, hnil]
      rfl
    · rw [List.getLast?_concat]

/-- Claim C1 counterexample: in `envRepeat3` the model returns the
identical `(tool, args)` call on the first three consecutive steps
(repeat_limit + 1 = 3 identical occurrences for the default limit 2),
yet the loop does not terminate with the repeat error: it emits two
corrective warnings and then, the model changing its answer at step 4,
finishes with `Status(DONE)` and a final chunk; no `error` frame is
ever emitted.  The breaker would only have fired on a fourth identical
occurrence, since the count (occurrences minus one) first exceeds the
limit there. -/
theorem three_identical_calls_do_not_trip_breaker :
    run_agent_loop envRepeat3 "S" "" none [] "hi" 10 =
      ⟨[.status .THINKING 1 10 "思考中...",
        .status .EXECUTING 1 10 "调用工具: t",
        .status .THINKING 2 10 "工具返回: ok...",
        .status .ERROR 2 10 "检测到重复调用",
        .status .ERROR 3 10 "检测到重复调用",
        .status .DONE 4 10 "已完成",
        .chunk "final answer"],
       [("t", Json.obj [])],
       ["Tool \x27t\x27 Result: ok",
        "Error: Repeated tool call \x27t\x27 with same arguments. Stop and answer.",
        "Error: Repeated tool call \x27t\x27 with same arguments. Stop and answer."],
       [1, 1, 1]⟩ ∧
    (run_agent_loop envRepeat3 "S" "" none [] "hi" 10).events.filter isErrorEvent = [] := by
  constructor
  · rfl
  · rfl

/-- Claim C1 (amended): when the model returns the identical
`(tool, args)` call on repeat_limit + 2 consecutive steps — the fourth
identical occurrence under the default limit 2 — the loop terminates
with the terminal repeat-limit `error`; the breaker fires as soon as
the repeat count (identical occurrences minus one) exceeds the limit,
and the tool is dispatched exactly once. -/
theorem breaker_fires_on_fourth_identical_call (env : Env) (sj cp : String)
    (tf : Option String) (hist : List Message) (uc c : String) (tc : Json) (k : Nat)
    (hchat : ∀ msgs, env.chat msgs = .ok (some c))
    (hparse : parse_tool_call env.extract env.decode c = some tc) :
    (run_agent_loop env sj cp tf hist uc (k + 1 + 1 + 1 + 1)).events =
      [.status .THINKING 1 (k + 1 + 1 + 1 + 1) "思考中...",
       .status .EXECUTING 1 (k + 1 + 1 + 1 + 1) s!"调用工具: {toolNameOf tc}",
       .status .THINKING 2 (k + 1 + 1 + 1 + 1)
         s!"工具返回: {resultPreview (toolResult env (toolNameOf tc) (toolArgsOf tc))}...",
       .status .ERROR 2 (k + 1 + 1 + 1 + 1) "检测到重复调用",
       .status .ERROR 3 (k + 1 + 1 + 1 + 1) "检测到重复调用",
       .error "重复工具调用超过上限，已终止执行" "UNKNOWN"] ∧
    (run_agent_loop env sj cp tf hist uc (k + 1 + 1 + 1 + 1)).dispatches =
      [(toolNameOf tc, toolArgsOf tc)] := by
  rw [run_agent_loop]
  rw [loopFrom_step_execute (hchat _) hparse (by simp)]
  dsimp only []
  rw [loopFrom_step_repeat (hchat _) hparse rfl (by simp)]
  dsimp only []
  rw [loopFrom_step_repeat (hchat _) hparse rfl (by simp)]
  dsimp only []
  rw [loopFrom_step_repeat_over (hchat _) hparse rfl (by simp)]
  exact ⟨rfl, rfl⟩

/-- Concrete instance of the amended C1: a model repeating the same
call forever trips the breaker at step 4 having dispatched once. -/
theorem breaker_fires_on_fourth_identical_call_witness :
    (run_agent_loop envRepeatForever "S" "" none [] "hi" 10).events =
      [.status .THINKING 1 10 "思考中...",
       .status .EXECUTING 1 10 "调用工具: t",
       .status .THINKING 2 10 "工具返回: ok...",
       .status .ERROR 2 10 "检测到重复调用",
       .status .ERROR 3 10 "检测到重复调用",
       .error "重复工具调用超过上限，已终止执行" "UNKNOWN"] ∧
    (run_agent_loop envRepeatForever "S" "" none [] "hi" 10).dispatches =
      [("t", Json.obj [])] :=
  breaker_fires_on_fourth_identical_call envRepeatForever "S" "" none [] "hi"
    toolCallText tcObj 6 (fun _ => rfl) rfl

/-- Claim C2: when the model keeps returning the identical
`(tool, args)` call, the tool is dispatched exactly once — on the
first occurrence — and every later observation folded into the
conversation is the corrective repeat message, never another tool
result. -/
theorem tool_executed_once_under_constant_repetition (env : Env) (sj cp : String)
    (tf : Option String) (hist : List Message) (uc c : String) (tc : Json) (m : Nat)
    (hchat : ∀ msgs, env.chat msgs = .ok (some c))
    (hparse : parse_tool_call env.extract env.decode c = some tc) :
    (run_agent_loop env sj cp tf hist uc (m + 1)).dispatches =
      [(toolNameOf tc, toolArgsOf tc)] ∧
    (run_agent_loop env sj cp tf hist uc (m + 1)).observations.head? =
      some (observationMsg (toolNameOf tc)
        (toolResult env (toolNameOf tc) (toolArgsOf tc))) ∧
    ∀ o ∈ (run_agent_loop env sj cp tf hist uc (m + 1)).observations.tail,
      o = repeatErrorMsg (toolNameOf tc) := by
  rw [run_agent_loop]
  rw [loopFrom_step_execute (hchat _) hparse (by simp)]
  dsimp only []
  have hlock := loopFrom_repeat_locked env (m + 1) c tc hchat hparse m (0 + 1)
    ⟨initial_messages (_load_system_prompt sj cp tf) hist uc ++
      [⟨"assistant", c⟩,
       ⟨"user", observationMsg (toolNameOf tc)
         (toolResult env (toolNameOf tc) (toolArgsOf tc))⟩],
      some (toolNameOf tc, toolArgsOf tc), 0⟩ rfl
  refine ⟨?_, rfl, ?_⟩
  · rw [hlock.1]
  · intro o ho
    exact hlock.2 o ho

/-- Concrete instance of C2: under `envRepeatForever` the run
dispatches "t" exactly once and all later observations are the
corrective message. -/
theorem tool_executed_once_under_constant_repetition_witness :
    (run_agent_loop envRepeatForever "S" "" none [] "hi" 10).dispatches =
      [("t", Json.obj [])] ∧
    (run_agent_loop envRepeatForever "S" "" none [] "hi" 10).observations.head? =
      some "Tool \x27t\x27 Result: ok" ∧
    ∀ o ∈ (run_agent_loop envRepeatForever "S" "" none [] "hi" 10).observations.tail,
      o = "Error: Repeated tool call \x27t\x27 with same arguments. Stop and answer." :=
  tool_executed_once_under_constant_repetition envRepeatForever "S" "" none [] "hi"
    toolCallText tcObj 9 (fun _ => rfl) rfl

/-- Claim C4 counterexample: the parser returns a tool call for the
decoded value `{"tool": 5, "args": 1}` although its "tool" value is
not a string and its "args" value is not a mapping — the code checks
only that both keys are present (the controller later coerces the
non-string name to `""` and the falsy args to `{}`). -/
theorem parser_accepts_nonstring_tool_value :
    parse_tool_call extractNone decodeBad "x" = some badToolCall ∧
    badToolCall.get "tool" = some (.num 5) ∧
    badToolCall.get "args" = some (.num 1) := by
  refine ⟨?_, rfl, rfl⟩
  rfl

/-- Claim C4 (amended): the parser returns a `ToolCall` exactly when
the structured decode of the selected text yields a mapping containing
both the "tool" and the "args" key, whatever the types of their
values; for every other input it returns no tool call and the
controller treats the text as the final answer. -/
theorem parser_classification_key_presence_only :
    (∀ (extract : String → Option String) (decode : String → Option Json)
        (content : String) (j : Json),
      parse_tool_call extract decode content = some j ↔
        (decode (selectText extract content) = some j ∧ j.isObj = true ∧
         j.hasKey "tool" = true ∧ j.hasKey "args" = true)) ∧
    (∀ (env : Env) (M fuel step : Nat) (st : LoopSt) (oc : Option String),
      env.chat st.messages = .ok oc →
      parse_tool_call env.extract env.decode (oc.getD "") = none →
      loopFrom env M 2 1 (fuel + 1) step st =
        ⟨[.status .DONE (step + 1) M "已完成", .chunk (oc.getD "")], [], [], []⟩) := by
  constructor
  · intro extract decode content j
    constructor
    · intro h
      rw [parse_tool_call] at h
      cases hd : decode (selectText extract content) with
      | none => rw [hd] at h; exact Option.noConfusion h
      | some d =>
        rw [hd] at h
        by_cases hc : (d.isObj && d.hasKey "tool" && d.hasKey "args") = true
        · simp only [hc, if_true] at h
          have hj : d = j := Option.some.inj h
          subst hj
          simp only [Bool.and_eq_true] at hc
          exact ⟨rfl, hc.1.1, hc.1.2, hc.2⟩
        · simp only [hc, if_false] at h
          exact Option.noConfusion h
    · rintro ⟨hd, h1, h2, h3⟩
      rw [parse_tool_call, hd]
      simp [h1, h2, h3]
  · intro env M fuel step st oc hchat hparse
    exact loopFrom_step_final hchat hparse

/-- Concrete instances of the amended C4: the malformed-typed mapping
is still classified as a tool call, and a non-decoding text makes the
controller finish with the text as final answer. -/
theorem parser_classification_key_presence_only_witness :
    parse_tool_call extractNone decodeBad "x" = some badToolCall ∧
    loopFrom envPlainAnswer 10 2 1 (0 + 1) 0 ⟨[], none, 0⟩ =
      ⟨[.status .DONE 1 10 "已完成", .chunk "4"], [], [], []⟩ := by
  constructor
  · exact (parser_classification_key_presence_only.1 extractNone decodeBad "x"
      badToolCall).mpr (by refine ⟨?_, rfl, rfl, rfl⟩; rfl)
  · exact parser_classification_key_presence_only.2 envPlainAnswer 10 0 0
      ⟨[], none, 0⟩ (some "4") rfl rfl

/-- Claim C5: every tool-level fault — unregistered tool name,
argument mismatch during construction, or an exception inside
`execute()` — is non-fatal: the step yields `Status(EXECUTING)` and
then the next `Status(THINKING)` and the loop continues with the fault
folded into the message sequence as observation text; nothing
propagates out of the step. -/
theorem tool_faults_are_nonfatal (env : Env) (M fuel step : Nat) (st : LoopSt)
    (c : String) (tc : Json)
    (hchat : env.chat st.messages = .ok (some c))
    (hparse : parse_tool_call env.extract env.decode c = some tc)
    (hsig : st.lastSig ≠ some (toolNameOf tc, toolArgsOf tc)) :
    (loopFrom env M 2 1 (fuel + 1) step st =
      (let n := toolNameOf tc
       let a := toolArgsOf tc
       let result := toolResult env n a
       let rest := loopFrom env M 2 1 fuel (step + 1)
         ⟨st.messages ++ [⟨"assistant", c⟩, ⟨"user", observationMsg n result⟩], some (n, a), 0⟩
       ⟨.status .EXECUTING (step + 1) M s!"调用工具: {n}"
          :: .status .THINKING (step + 2) M s!"工具返回: {resultPreview result}..."
          :: rest.events,
        (n, a) :: rest.dispatches,
        observationMsg n result :: rest.observations,
        1 :: rest.sleeps⟩)) ∧
    (env.getTool (toolNameOf tc) = none → toolNameOf tc ≠ "" →
      toolResult env (toolNameOf tc) (toolArgsOf tc) =
        s!"Error: Tool \x27{toolNameOf tc}\x27 not found.") ∧
    (toolNameOf tc = "" →
      toolResult env (toolNameOf tc) (toolArgsOf tc) =
        "Error: Tool \x27UNKNOWN\x27 not found.") ∧
    (∀ impl e, toolNameOf tc ≠ "" → env.getTool (toolNameOf tc) = some impl →
      impl (toolArgsOf tc) = .error e →
      toolResult env (toolNameOf tc) (toolArgsOf tc) =
        s!"Error execution tool: {e}") := by
  refine ⟨loopFrom_step_execute hchat hparse hsig, ?_, ?_, ?_⟩
  · intro hnone hne
    rw [toolResult, if_pos hne, hnone]
    dsimp only []
    rw [if_neg hne]
  · intro h0
    rw [toolResult, if_neg (by simp [h0]), if_pos h0]
    rfl
  · intro impl e hne himpl herr
    rw [toolResult, if_pos hne, himpl]
    dsimp only []
    rw [herr]

/-- Concrete instance of C5: a call to the unregistered tool "missing"
is folded in as an observation and the loop reaches the next THINKING
status. -/
theorem tool_faults_are_nonfatal_witness :
    ((loopFrom envNoTool 10 2 1 (3 + 1) 0 ⟨[⟨"user", "hi"⟩], none, 0⟩).events.take 2 =
      [.status .EXECUTING 1 10 "调用工具: missing",
       .status .THINKING 2 10 "工具返回: Error: Tool \x27missing\x27 not found...."]) ∧
    toolResult envNoTool "missing" (Json.obj []) =
      "Error: Tool \x27missing\x27 not found." := by
  have h := tool_faults_are_nonfatal envNoTool 10 3 0 ⟨[⟨"user", "hi"⟩], none, 0⟩ "M"
    (.obj [("tool", .str "missing"), ("args", .obj [])]) rfl rfl (by simp)
  constructor
  · rw [h.1]
    rfl
  · exact h.2.1 rfl (by decide)

/-- Claim C8 counterexample: `run_agent_loop` cannot realize an
overridden repeat limit — its signature carries no such parameter and
its behaviour differs from what an invocation with `repeat_limit = 0`
(as promised by the spec's configuration section) would produce: with
the limit overridden to 0 the breaker would fire on the second
identical occurrence, while the entry point always waits for the
fourth. -/
theorem repeat_limit_not_overridable :
    run_agent_loop envRepeatForever "S" "" none [] "hi" 10 ≠
      run_agent_loop_specConfig envRepeatForever "S" "" none [] "hi" 10 0 1 := by
  decide

/-- Claim C8 (amended): the entry point exposes only `max_steps`
(default 10) per invocation; the effective repeat limit equals the
fixed constant 2 and every backoff sleep lasts the fixed 1 second, on
every invocation. -/
theorem loop_constants_fixed_per_invocation (env : Env) (sj cp : String)
    (tf : Option String) (hist : List Message) (uc : String) (M : Nat) :
    run_agent_loop env sj cp tf hist uc M =
      run_agent_loop_specConfig env sj cp tf hist uc M 2 1 ∧
    run_agent_loop env sj cp tf hist uc = run_agent_loop env sj cp tf hist uc 10 ∧
    ∀ d ∈ (run_agent_loop env sj cp tf hist uc M).sleeps, d = 1 := by
  refine ⟨rfl, rfl, ?_⟩
  intro d hd
  rw [run_agent_loop] at hd
  exact loopFrom_sleeps env M 2 1 M 0 _ d hd

/-- Concrete instance of the amended C8: on a run with three sleeps
every sleep is 1 second and the entry point agrees with the fixed
configuration (2, 1). -/
theorem loop_constants_fixed_per_invocation_witness :
    run_agent_loop envRepeatForever "S" "" none [] "hi" 10 =
      run_agent_loop_specConfig envRepeatForever "S" "" none [] "hi" 10 2 1 ∧
    (1 : Nat) = 1 := by
  have h := loop_constants_fixed_per_invocation envRepeatForever "S" "" none [] "hi" 10
  exact ⟨h.1, h.2.2 1 (by decide)⟩

end UniversalRag
